import Mathlib

/-
  Verification of the area-scoped head-detection pipeline of the
  person-count web server (src/person_counter.cpp, src/person_counter.h).

  The embedding models the C++ data structures with Lean structures
  (C++ `int` fields as `Int`, `float` fields as `ℚ` since the pipeline
  only copies them and never computes with them), and the two core
  functions `getTgtRect` and `PersonCounter::detectHeads` as pure Lean
  functions.  The external collaborators (the JPEG codec `cv::imdecode`
  and the YOLO `Inference` engine) are opaque boundaries in the source;
  they enter the embedding as explicit parameters: a decode function
  `List Nat → Option Image` (`none` models the empty `cv::Mat` returned
  on decode failure) and an `Inference` record carrying the threshold
  state mutated by `setThresholds` together with an abstract inference
  function consulted by `runInference`.

  The sub-image extraction `img(tgtRect).clone()` is fallible: the
  `cv::Mat` ROI constructor asserts
  `0 <= roi.x && 0 <= roi.width && roi.x + roi.width <= m.cols` (and
  likewise for y/height/rows) and throws `cv::Exception` on violation,
  aborting the call before the thresholds are configured and before the
  detector is invoked.  The embedding models this range check explicitly
  (`roiInRange`), so `cropImage` returns an `Option Image` and a call
  outcome is either a normally returned vector or an escaped
  `cv::Exception`.

  `detectHeads` returns, besides that outcome, the observable trace of
  the call: the decoded image, the crop rectangle it computed, the
  images the detector was invoked on, the final detector state, and the
  (unchanged) threshold record — making frame effects and "was the
  detector called" properties provable.
-/

namespace PersonCount

/-- Head-region rectangle as returned to the caller
(struct `Rect` in person_counter.h). -/
structure Rect where
  x : Int
  y : Int
  width : Int
  height : Int
  confidence : ℚ
deriving DecidableEq

/-- Polygon vertex (struct `OBJPos` in person_counter.h). -/
structure OBJPos where
  x : Int
  y : Int
deriving DecidableEq

/-- Detection thresholds (struct `Thresholds` in person_counter.h). -/
structure Thresholds where
  confidenceThreshold : ℚ
  scoreThreshold : ℚ
  nmsThreshold : ℚ
deriving DecidableEq

/-- `cv::Rect`: an axis-aligned rectangle with integer fields. -/
structure CvRect where
  x : Int
  y : Int
  width : Int
  height : Int
deriving DecidableEq

/-- A decoded raster image (`cv::Mat`): column/row counts and a pixel
lookup.  Pixel values are opaque naturals; only identity of contents
matters to the claims. -/
structure Image where
  cols : Int
  rows : Int
  pix : Int → Int → Nat

/-- Detector output (struct `Detection` of the external inference
engine): a box in crop-local coordinates and a confidence. -/
structure Detection where
  box : CvRect
  confidence : ℚ
deriving DecidableEq

/-- The external `Inference` engine: its three threshold fields (set by
`setThresholds`, read by `runInference`) and an abstract inference
function standing for the opaque YOLO model. -/
structure Inference where
  modelConfidenceThreshold : ℚ
  modelScoreThreshold : ℚ
  modelNMSThreshold : ℚ
  infer : Image → ℚ → ℚ → ℚ → List Detection

/-- `Inference::setThresholds`: store the three thresholds in the
engine. -/
def setThresholds (inf : Inference) (conf score nms : ℚ) : Inference :=
  { inf with
      modelConfidenceThreshold := conf
      modelScoreThreshold := score
      modelNMSThreshold := nms }

/-- `Inference::runInference`: run the opaque model on the image using
the stored thresholds. -/
def runInference (inf : Inference) (img : Image) : List Detection :=
  inf.infer img inf.modelConfidenceThreshold inf.modelScoreThreshold
    inf.modelNMSThreshold

/-- The four accumulators of the loop in `getTgtRect`. -/
structure BoundAcc where
  ltx : Int
  lty : Int
  rbx : Int
  rby : Int
deriving DecidableEq

/-- One iteration of the vertex loop in `getTgtRect`
(person_counter.cpp lines 58–71): conditional min/max updates of the
four accumulators. -/
def boundStep (a : BoundAcc) (p : OBJPos) : BoundAcc :=
  { ltx := if a.ltx > p.x then p.x else a.ltx
    lty := if a.lty > p.y then p.y else a.lty
    rbx := if a.rbx < p.x then p.x else a.rbx
    rby := if a.rby < p.y then p.y else a.rby }

/-- `getTgtRect` (person_counter.cpp lines 49–78): bounding rectangle of
the vertex list, with min accumulators seeded by the image dimensions
and max accumulators seeded by 0. -/
def getTgtRect (vertices : List OBJPos) (cam_width cam_height : Int) :
    CvRect :=
  let a := vertices.foldl boundStep
    { ltx := cam_width, lty := cam_height, rbx := 0, rby := 0 }
  { x := a.ltx, y := a.lty, width := a.rbx - a.ltx,
    height := a.rby - a.lty }

/-- The range check asserted by the `cv::Mat` ROI constructor invoked
by `img(tgtRect)`: `0 <= roi.x && 0 <= roi.width &&
roi.x + roi.width <= m.cols && 0 <= roi.y && 0 <= roi.height &&
roi.y + roi.height <= m.rows`. -/
def roiInRange (img : Image) (r : CvRect) : Prop :=
  0 ≤ r.x ∧ 0 ≤ r.width ∧ r.x + r.width ≤ img.cols ∧
  0 ≤ r.y ∧ 0 ≤ r.height ∧ r.y + r.height ≤ img.rows

instance (img : Image) (r : CvRect) : Decidable (roiInRange img r) := by
  unfold roiInRange
  infer_instance

/-- The sub-image data selected by an in-range ROI `r` of `img`: the
crop's pixel (row, col) is the original's pixel
(row + r.y, col + r.x). -/
def subImage (img : Image) (r : CvRect) : Image :=
  { cols := r.width, rows := r.height
    pix := fun row col => img.pix (row + r.y) (col + r.x) }

/-- `img(tgtRect).clone()`: the copied sub-image of `img` selected by
`r` when `r` passes the ROI constructor's range assertion; `none`
models the `cv::Exception` the assertion throws otherwise.  The
original image is not written to either way. -/
def cropImage (img : Image) (r : CvRect) : Option Image :=
  if roiInRange img r then some (subImage img r) else none

/-- How one `detectHeads` call ends: a normally returned vector, or a
`cv::Exception` (thrown by the ROI constructor) escaping the call. -/
inductive CallOutcome where
  | ok : List Rect → CallOutcome
  | cvException : CallOutcome
deriving DecidableEq

/-- Everything observable about one `detectHeads` call: its outcome
plus the call's trace (decoded image, crop rectangle, images the
detector was invoked on, final detector state, final threshold
record). -/
structure PipelineResult where
  outcome : CallOutcome
  decodedImg : Option Image
  cropRect : Option CvRect
  detectorInputs : List Image
  infOut : Inference
  thresholdsOut : Thresholds

/-- `PersonCounter::detectHeads` (person_counter.cpp lines 89–135):
decode the JPEG bytes (returning an empty vector when decoding fails),
compute the bounding rectangle of the vertices, crop — the call aborts
with `cv::Exception` here when the rectangle fails the ROI range
assertion, before any threshold is set and before the detector runs —
then configure the detector thresholds, run inference on the crop, and
translate every detection box by the crop offset. -/
def detectHeads (imdecode : List Nat → Option Image) (inf : Inference)
    (jpegData : List Nat) (vertices : List OBJPos)
    (thresholds : Thresholds) : PipelineResult :=
  match imdecode jpegData with
  | none =>
      { outcome := CallOutcome.ok [], decodedImg := none,
        cropRect := none, detectorInputs := [], infOut := inf,
        thresholdsOut := thresholds }
  | some img =>
      let width := img.cols
      let height := img.rows
      let tgtRect := getTgtRect vertices width height
      match cropImage img tgtRect with
      | none =>
          { outcome := CallOutcome.cvException, decodedImg := some img,
            cropRect := some tgtRect, detectorInputs := [],
            infOut := inf, thresholdsOut := thresholds }
      | some src =>
          let inf1 := setThresholds inf thresholds.confidenceThreshold
            thresholds.scoreThreshold thresholds.nmsThreshold
          let output := runInference inf1 src
          let results := output.map fun detection =>
            { x := detection.box.x + tgtRect.x
              y := detection.box.y + tgtRect.y
              width := detection.box.width
              height := detection.box.height
              confidence := detection.confidence : Rect }
          { outcome := CallOutcome.ok results, decodedImg := some img,
            cropRect := some tgtRect, detectorInputs := [src],
            infOut := inf1, thresholdsOut := thresholds }

/-- The min reduction performed by the `ltx`/`lty` accumulators of the
vertex loop, over a bare list of coordinates. -/
def minFold (s : Int) (l : List Int) : Int :=
  l.foldl (fun m v => if m > v then v else m) s

/-- The max reduction performed by the `rbx`/`rby` accumulators of the
vertex loop, over a bare list of coordinates. -/
def maxFold (s : Int) (l : List Int) : Int :=
  l.foldl (fun m v => if m < v then v else m) s

lemma foldl_boundStep_ltx (vs : List OBJPos) (a : BoundAcc) :
    (vs.foldl boundStep a).ltx = minFold a.ltx (vs.map OBJPos.x) := by
  induction vs generalizing a with
  | nil => rfl
  | cons p t ih => simp [minFold, boundStep, ih, List.foldl_map]

lemma foldl_boundStep_lty (vs : List OBJPos) (a : BoundAcc) :
    (vs.foldl boundStep a).lty = minFold a.lty (vs.map OBJPos.y) := by
  induction vs generalizing a with
  | nil => rfl
  | cons p t ih => simp [minFold, boundStep, ih, List.foldl_map]

lemma foldl_boundStep_rbx (vs : List OBJPos) (a : BoundAcc) :
    (vs.foldl boundStep a).rbx = maxFold a.rbx (vs.map OBJPos.x) := by
  induction vs generalizing a with
  | nil => rfl
  | cons p t ih => simp [maxFold, boundStep, ih, List.foldl_map]

lemma foldl_boundStep_rby (vs : List OBJPos) (a : BoundAcc) :
    (vs.foldl boundStep a).rby = maxFold a.rby (vs.map OBJPos.y) := by
  induction vs generalizing a with
  | nil => rfl
  | cons p t ih => simp [maxFold, boundStep, ih, List.foldl_map]

lemma minFold_le_seed (s : Int) (l : List Int) : minFold s l ≤ s := by
  induction l generalizing s with
  | nil => exact le_refl s
  | cons v t ih =>
      simp only [minFold, List.foldl_cons] at ih ⊢
      by_cases hc : s > v
      · rw [if_pos hc]
        have h := ih v
        omega
      · rw [if_neg hc]
        exact ih s

lemma minFold_le_mem (s : Int) {l : List Int} {v : Int} (h : v ∈ l) :
    minFold s l ≤ v := by
  induction l generalizing s with
  | nil => cases h
  | cons u t ih =>
      rcases List.mem_cons.mp h with rfl | hmem
      · simp only [minFold, List.foldl_cons]
        by_cases hc : s > v
        · rw [if_pos hc]
          exact minFold_le_seed v t
        · rw [if_neg hc]
          have h2 := minFold_le_seed s t
          simp only [minFold] at h2
          omega
      · simpa only [minFold, List.foldl_cons] using ih _ hmem

lemma minFold_eq_seed_or_mem (s : Int) (l : List Int) :
    minFold s l = s ∨ minFold s l ∈ l := by
  induction l generalizing s with
  | nil => exact Or.inl rfl
  | cons v t ih =>
      rcases ih (if s > v then v else s) with h | h
      · simp only [minFold, List.foldl_cons] at h ⊢
        rw [h]
        split
        · exact Or.inr (List.mem_cons_self _ _)
        · exact Or.inl rfl
      · simp only [minFold, List.foldl_cons] at h ⊢
        exact Or.inr (List.mem_cons_of_mem _ h)

lemma seed_le_maxFold (s : Int) (l : List Int) : s ≤ maxFold s l := by
  induction l generalizing s with
  | nil => exact le_refl s
  | cons v t ih =>
      simp only [maxFold, List.foldl_cons] at ih ⊢
      by_cases hc : s < v
      · rw [if_pos hc]
        have h := ih v
        omega
      · rw [if_neg hc]
        exact ih s

lemma mem_le_maxFold (s : Int) {l : List Int} {v : Int} (h : v ∈ l) :
    v ≤ maxFold s l := by
  induction l generalizing s with
  | nil => cases h
  | cons u t ih =>
      rcases List.mem_cons.mp h with rfl | hmem
      · simp only [maxFold, List.foldl_cons]
        by_cases hc : s < v
        · rw [if_pos hc]
          exact seed_le_maxFold v t
        · rw [if_neg hc]
          have h2 := seed_le_maxFold s t
          simp only [maxFold] at h2
          omega
      · simpa only [maxFold, List.foldl_cons] using ih _ hmem

lemma maxFold_eq_seed_or_mem (s : Int) (l : List Int) :
    maxFold s l = s ∨ maxFold s l ∈ l := by
  induction l generalizing s with
  | nil => exact Or.inl rfl
  | cons v t ih =>
      rcases ih (if s < v then v else s) with h | h
      · simp only [maxFold, List.foldl_cons] at h ⊢
        rw [h]
        split
        · exact Or.inr (List.mem_cons_self _ _)
        · exact Or.inl rfl
      · simp only [maxFold, List.foldl_cons] at h ⊢
        exact Or.inr (List.mem_cons_of_mem _ h)

lemma getTgtRect_x (vs : List OBJPos) (w h : Int) :
    (getTgtRect vs w h).x = minFold w (vs.map OBJPos.x) := by
  simp [getTgtRect, foldl_boundStep_ltx]

lemma getTgtRect_y (vs : List OBJPos) (w h : Int) :
    (getTgtRect vs w h).y = minFold h (vs.map OBJPos.y) := by
  simp [getTgtRect, foldl_boundStep_lty]

lemma getTgtRect_right (vs : List OBJPos) (w h : Int) :
    (getTgtRect vs w h).x + (getTgtRect vs w h).width =
      maxFold 0 (vs.map OBJPos.x) := by
  simp [getTgtRect, foldl_boundStep_rbx]

lemma getTgtRect_bottom (vs : List OBJPos) (w h : Int) :
    (getTgtRect vs w h).y + (getTgtRect vs w h).height =
      maxFold 0 (vs.map OBJPos.y) := by
  simp [getTgtRect, foldl_boundStep_rby]

/-- C2: for every non-empty vertex list whose coordinates all lie within
`[0, w] × [0, h]`, `getTgtRect` returns the smallest axis-aligned
rectangle covering all vertices: every vertex lies in
`[x, x + width] × [y, y + height]`, and each of the four edges is
attained by some vertex (so `x`/`y` are the coordinate minima and
`x + width`/`y + height` the maxima). -/
theorem getTgtRect_minimal_cover (vs : List OBJPos) (w h : Int)
    (hne : vs ≠ [])
    (hin : ∀ p ∈ vs, 0 ≤ p.x ∧ p.x ≤ w ∧ 0 ≤ p.y ∧ p.y ≤ h) :
    (∀ p ∈ vs,
      (getTgtRect vs w h).x ≤ p.x ∧
      p.x ≤ (getTgtRect vs w h).x + (getTgtRect vs w h).width ∧
      (getTgtRect vs w h).y ≤ p.y ∧
      p.y ≤ (getTgtRect vs w h).y + (getTgtRect vs w h).height) ∧
    (∃ p ∈ vs, p.x = (getTgtRect vs w h).x) ∧
    (∃ p ∈ vs, p.y = (getTgtRect vs w h).y) ∧
    (∃ p ∈ vs, p.x = (getTgtRect vs w h).x + (getTgtRect vs w h).width) ∧
    (∃ p ∈ vs, p.y = (getTgtRect vs w h).y + (getTgtRect vs w h).height)
    := by
  obtain ⟨q, hq⟩ : ∃ q, q ∈ vs := by
    cases vs with
    | nil => exact absurd rfl hne
    | cons a t => exact ⟨a, List.mem_cons_self a t⟩
  refine ⟨?_, ?_, ?_, ?_, ?_⟩
  · intro p hp
    refine ⟨?_, ?_, ?_, ?_⟩
    · rw [getTgtRect_x]
      exact minFold_le_mem w (List.mem_map_of_mem OBJPos.x hp)
    · rw [getTgtRect_right]
      exact mem_le_maxFold 0 (List.mem_map_of_mem OBJPos.x hp)
    · rw [getTgtRect_y]
      exact minFold_le_mem h (List.mem_map_of_mem OBJPos.y hp)
    · rw [getTgtRect_bottom]
      exact mem_le_maxFold 0 (List.mem_map_of_mem OBJPos.y hp)
  · rw [getTgtRect_x]
    rcases minFold_eq_seed_or_mem w (vs.map OBJPos.x) with he | hm
    · refine ⟨q, hq, ?_⟩
      have h1 := minFold_le_mem w (List.mem_map_of_mem OBJPos.x hq)
      have h2 := (hin q hq).2.1
      omega
    · rcases List.mem_map.mp hm with ⟨p, hp, hpx⟩
      exact ⟨p, hp, hpx⟩
  · rw [getTgtRect_y]
    rcases minFold_eq_seed_or_mem h (vs.map OBJPos.y) with he | hm
    · refine ⟨q, hq, ?_⟩
      have h1 := minFold_le_mem h (List.mem_map_of_mem OBJPos.y hq)
      have h2 := (hin q hq).2.2.2
      omega
    · rcases List.mem_map.mp hm with ⟨p, hp, hpy⟩
      exact ⟨p, hp, hpy⟩
  · rw [getTgtRect_right]
    rcases maxFold_eq_seed_or_mem 0 (vs.map OBJPos.x) with he | hm
    · refine ⟨q, hq, ?_⟩
      have h1 := mem_le_maxFold 0 (List.mem_map_of_mem OBJPos.x hq)
      have h2 := (hin q hq).1
      omega
    · rcases List.mem_map.mp hm with ⟨p, hp, hpx⟩
      exact ⟨p, hp, hpx⟩
  · rw [getTgtRect_bottom]
    rcases maxFold_eq_seed_or_mem 0 (vs.map OBJPos.y) with he | hm
    · refine ⟨q, hq, ?_⟩
      have h1 := mem_le_maxFold 0 (List.mem_map_of_mem OBJPos.y hq)
      have h2 := (hin q hq).2.2.1
      omega
    · rcases List.mem_map.mp hm with ⟨p, hp, hpy⟩
      exact ⟨p, hp, hpy⟩

/-- The spec's worked example: the rectangle of vertices
(10,20),(100,20),(100,80),(10,80) in a 640×480 image. -/
def exampleVertices : List OBJPos :=
  [⟨10, 20⟩, ⟨100, 20⟩, ⟨100, 80⟩, ⟨10, 80⟩]

/-- Witness for C2 at the spec's example: the hypotheses hold for the
four vertices in a 640×480 image, the minimal-cover theorem applies, and
the resulting rectangle is exactly (10, 20, 90, 60). -/
theorem getTgtRect_minimal_cover_witness :
    ((∀ p ∈ exampleVertices,
      (getTgtRect exampleVertices 640 480).x ≤ p.x ∧
      p.x ≤ (getTgtRect exampleVertices 640 480).x +
        (getTgtRect exampleVertices 640 480).width ∧
      (getTgtRect exampleVertices 640 480).y ≤ p.y ∧
      p.y ≤ (getTgtRect exampleVertices 640 480).y +
        (getTgtRect exampleVertices 640 480).height) ∧
    (∃ p ∈ exampleVertices, p.x = (getTgtRect exampleVertices 640 480).x) ∧
    (∃ p ∈ exampleVertices, p.y = (getTgtRect exampleVertices 640 480).y) ∧
    (∃ p ∈ exampleVertices, p.x = (getTgtRect exampleVertices 640 480).x +
      (getTgtRect exampleVertices 640 480).width) ∧
    (∃ p ∈ exampleVertices, p.y = (getTgtRect exampleVertices 640 480).y +
      (getTgtRect exampleVertices 640 480).height)) ∧
    getTgtRect exampleVertices 640 480 =
      { x := 10, y := 20, width := 90, height := 60 } :=
  ⟨getTgtRect_minimal_cover exampleVertices 640 480 (by decide)
    (by decide), by decide⟩

/-- C6: the image dimensions only seed the min accumulators and the
result is not clamped to the image: the right and bottom edges of the
rectangle are independent of `imageWidth`/`imageHeight`, and for the
vertex list [(0,0),(200,50)] in a 100×100 image the returned rectangle
extends past the image boundary. -/
theorem getTgtRect_no_clamp :
    (∀ (vs : List OBJPos) (w h w2 h2 : Int),
      (getTgtRect vs w h).x + (getTgtRect vs w h).width =
        (getTgtRect vs w2 h2).x + (getTgtRect vs w2 h2).width ∧
      (getTgtRect vs w h).y + (getTgtRect vs w h).height =
        (getTgtRect vs w2 h2).y + (getTgtRect vs w2 h2).height) ∧
    ((∃ p ∈ ([⟨0, 0⟩, ⟨200, 50⟩] : List OBJPos), p.x > 100) ∧
      (getTgtRect [⟨0, 0⟩, ⟨200, 50⟩] 100 100).x +
        (getTgtRect [⟨0, 0⟩, ⟨200, 50⟩] 100 100).width > 100) := by
  constructor
  · intro vs w h w2 h2
    rw [getTgtRect_right, getTgtRect_right, getTgtRect_bottom,
      getTgtRect_bottom]
    exact ⟨rfl, rfl⟩
  · exact ⟨by decide, by decide⟩

/-- A 8×6 stub image used by concrete witnesses. -/
def stubImg : Image := { cols := 8, rows := 6, pix := fun _ _ => 0 }

/-- A stub codec that decodes any byte list to `stubImg`. -/
def stubDecode : List Nat → Option Image := fun _ => some stubImg

/-- A 16×12 stub image, large enough to contain the witness triangle of
the no-filtering property. -/
def stubImgBig : Image := { cols := 16, rows := 12, pix := fun _ _ => 0 }

/-- A stub codec that decodes any byte list to `stubImgBig`. -/
def stubDecodeBig : List Nat → Option Image := fun _ => some stubImgBig

/-- A stub codec that fails on every byte list (models `cv::imdecode`
returning an empty `cv::Mat`). -/
def stubBadDecode : List Nat → Option Image := fun _ => none

/-- A stub detector that always reports one box (5,6,7,8) with
confidence 1/2, whatever the image and thresholds. -/
def stubInfOne : Inference :=
  { modelConfidenceThreshold := 0, modelScoreThreshold := 0,
    modelNMSThreshold := 0,
    infer := fun _ _ _ _ => [{ box := ⟨5, 6, 7, 8⟩, confidence := 1/2 }] }

/-- A stub detector that never reports a box. -/
def stubInfNone : Inference :=
  { modelConfidenceThreshold := 0, modelScoreThreshold := 0,
    modelNMSThreshold := 0, infer := fun _ _ _ _ => [] }

/-- A stub detector reporting two boxes, the first of which
((9,9),1×1) lies inside the bounding rectangle of the triangle
(0,0),(10,0),(0,10) but outside the triangle itself. -/
def stubInfTwo : Inference :=
  { modelConfidenceThreshold := 0, modelScoreThreshold := 0,
    modelNMSThreshold := 0,
    infer := fun _ _ _ _ =>
      [{ box := ⟨9, 9, 1, 1⟩, confidence := 3/4 },
       { box := ⟨1, 1, 2, 2⟩, confidence := 1/4 }] }

/-- Default thresholds 0.2/0.2/0.2 from person_counter.h. -/
def stubThresholds : Thresholds := ⟨1/5, 1/5, 1/5⟩

/-- C1: for the crop rectangle computed by the bounding computation and
every detection box the detector returns on the cropped sub-image,
`detectHeads` returns exactly the translated result: `x`/`y` shifted by
the rectangle's corner, `width`/`height`/`confidence` copied
unchanged. -/
theorem detectHeads_translation (imdecode : List Nat → Option Image)
    (inf : Inference) (jpegData : List Nat) (vertices : List OBJPos)
    (thresholds : Thresholds) (img : Image) (rect : CvRect)
    (output : List Detection)
    (hdec : imdecode jpegData = some img)
    (hrect : rect = getTgtRect vertices img.cols img.rows)
    (hroi : roiInRange img rect)
    (hout : output = runInference
      (setThresholds inf thresholds.confidenceThreshold
        thresholds.scoreThreshold thresholds.nmsThreshold)
      (subImage img rect))
    (i : Nat) (hi : i < output.length) :
    ∃ results,
      (detectHeads imdecode inf jpegData vertices thresholds).outcome =
        CallOutcome.ok results ∧
      ∃ hj : i < results.length,
      results.get ⟨i, hj⟩ =
        { x := (output.get ⟨i, hi⟩).box.x + rect.x
          y := (output.get ⟨i, hi⟩).box.y + rect.y
          width := (output.get ⟨i, hi⟩).box.width
          height := (output.get ⟨i, hi⟩).box.height
          confidence := (output.get ⟨i, hi⟩).confidence } := by
  subst hrect
  subst hout
  have hc : cropImage img (getTgtRect vertices img.cols img.rows) =
      some (subImage img (getTgtRect vertices img.cols img.rows)) := by
    unfold cropImage
    exact if_pos hroi
  simp only [detectHeads, hdec, hc]
  refine ⟨_, rfl, ?_, ?_⟩
  · simpa using hi
  · simp [List.get_eq_getElem, List.getElem_map]

/-- Witness for C1: with a stub codec and a stub detector reporting the
box (5,6,7,8) with confidence 1/2 inside the crop rectangle of vertices
(1,2),(3,4), the returned result is exactly (5+1, 6+2, 7, 8, 1/2). -/
theorem detectHeads_translation_witness :
    ∃ results,
      (detectHeads stubDecode stubInfOne [] [⟨1, 2⟩, ⟨3, 4⟩]
        stubThresholds).outcome = CallOutcome.ok results ∧
      ∃ hj : 0 < results.length,
      results.get ⟨0, hj⟩ =
        { x := 5 + 1, y := 6 + 2, width := 7, height := 8,
          confidence := 1/2 } := by
  have h := detectHeads_translation stubDecode stubInfOne []
    [⟨1, 2⟩, ⟨3, 4⟩] stubThresholds stubImg
    (getTgtRect [⟨1, 2⟩, ⟨3, 4⟩] stubImg.cols stubImg.rows)
    (runInference
      (setThresholds stubInfOne stubThresholds.confidenceThreshold
        stubThresholds.scoreThreshold stubThresholds.nmsThreshold)
      (subImage stubImg
        (getTgtRect [⟨1, 2⟩, ⟨3, 4⟩] stubImg.cols stubImg.rows)))
    rfl rfl (by decide) rfl 0 (by decide)
  obtain ⟨results, hok, hj, he⟩ := h
  exact ⟨results, hok, hj, by rw [he]; rfl⟩

/-- C9: `detectHeads` performs no filtering or masking of the detector
output against the polygon: the returned list has exactly the
detector's output length, and the i-th result is the translation of the
i-th detection (order preserved), regardless of where the detections
lie. -/
theorem detectHeads_no_polygon_filter (imdecode : List Nat → Option Image)
    (inf : Inference) (jpegData : List Nat) (vertices : List OBJPos)
    (thresholds : Thresholds) (img : Image) (rect : CvRect)
    (output : List Detection)
    (hdec : imdecode jpegData = some img)
    (hrect : rect = getTgtRect vertices img.cols img.rows)
    (hroi : roiInRange img rect)
    (hout : output = runInference
      (setThresholds inf thresholds.confidenceThreshold
        thresholds.scoreThreshold thresholds.nmsThreshold)
      (subImage img rect)) :
    ∃ results,
      (detectHeads imdecode inf jpegData vertices thresholds).outcome =
        CallOutcome.ok results ∧
      results.length = output.length ∧
      ∀ (i : Nat) (hi : i < output.length) (hj : i < results.length),
        (results.get ⟨i, hj⟩).x - rect.x = (output.get ⟨i, hi⟩).box.x ∧
        (results.get ⟨i, hj⟩).y - rect.y = (output.get ⟨i, hi⟩).box.y := by
  subst hrect
  subst hout
  have hc : cropImage img (getTgtRect vertices img.cols img.rows) =
      some (subImage img (getTgtRect vertices img.cols img.rows)) := by
    unfold cropImage
    exact if_pos hroi
  simp only [detectHeads, hdec, hc]
  refine ⟨_, rfl, by simp, ?_⟩
  intro i hi hj
  constructor <;> simp [List.get_eq_getElem, List.getElem_map]

/-- Witness for C9: with the triangle (0,0),(10,0),(0,10) inside a
16×12 image and a stub detector reporting two boxes — one of them
outside the triangle — both are returned, so the count equals the
detector's output count. -/
theorem detectHeads_no_polygon_filter_witness :
    ∃ results,
      (detectHeads stubDecodeBig stubInfTwo [] [⟨0, 0⟩, ⟨10, 0⟩, ⟨0, 10⟩]
        stubThresholds).outcome = CallOutcome.ok results ∧
      results.length = 2 := by
  obtain ⟨results, hok, hlen, h⟩ := detectHeads_no_polygon_filter
    stubDecodeBig stubInfTwo [] [⟨0, 0⟩, ⟨10, 0⟩, ⟨0, 10⟩] stubThresholds
    stubImgBig
    (getTgtRect [⟨0, 0⟩, ⟨10, 0⟩, ⟨0, 10⟩] stubImgBig.cols stubImgBig.rows)
    (runInference
      (setThresholds stubInfTwo stubThresholds.confidenceThreshold
        stubThresholds.scoreThreshold stubThresholds.nmsThreshold)
      (subImage stubImgBig
        (getTgtRect [⟨0, 0⟩, ⟨10, 0⟩, ⟨0, 10⟩] stubImgBig.cols
          stubImgBig.rows)))
    rfl rfl (by decide) rfl
  exact ⟨results, hok, by rw [hlen]; rfl⟩

/-- `getTgtRect` on the empty vertex list: the accumulators keep their
seeds, so the rectangle is (w, h, -w, -h). -/
lemma getTgtRect_nil (w h : Int) :
    getTgtRect [] w h = { x := w, y := h, width := -w, height := -h } := by
  simp only [getTgtRect, List.foldl_nil]
  congr 1 <;> omega

/-- For a positive-width image, the degenerate empty-vertex rectangle
fails the ROI range assertion (its width -w is negative). -/
lemma not_roiInRange_nil (img : Image) (hw : 0 < img.cols) :
    ¬ roiInRange img (getTgtRect [] img.cols img.rows) := by
  rw [getTgtRect_nil]
  intro hcon
  have h2 : (0 : Int) ≤ -img.cols := hcon.2.1
  omega

/-- Cropping with the degenerate empty-vertex rectangle throws: the ROI
constructor's assertion fails on the negative width. -/
lemma cropImage_nil (img : Image) (hw : 0 < img.cols) :
    cropImage img (getTgtRect [] img.cols img.rows) = none := by
  unfold cropImage
  exact if_neg (not_roiInRange_nil img hw)

/-- Counterexample to C3: with an empty vertex list and a decodable 4×3
image the pipeline raises no InvalidArea error: it silently produces
the degenerate rectangle (4, 3, -4, -3) and attempts the crop with it,
which aborts the call with the ROI constructor's `cv::Exception`; no
designed error value is produced (and the detector is never invoked). -/
theorem detectHeads_empty_vertices_no_error_cex :
    (detectHeads (fun _ => some { cols := 4, rows := 3, pix := fun _ _ => 0 })
      stubInfNone [] [] stubThresholds).cropRect =
      some { x := 4, y := 3, width := -4, height := -3 } ∧
    (detectHeads (fun _ => some { cols := 4, rows := 3, pix := fun _ _ => 0 })
      stubInfNone [] [] stubThresholds).outcome =
      CallOutcome.cvException ∧
    (detectHeads (fun _ => some { cols := 4, rows := 3, pix := fun _ _ => 0 })
      stubInfNone [] [] stubThresholds).detectorInputs = [] := by
  exact ⟨rfl, rfl, rfl⟩

/-- C3 amended: for an empty vertex sequence the pipeline fails, but
not with a designed InvalidArea error: after a successful decode of an
image with positive dimensions it silently produces the degenerate
bounding rectangle and proceeds to the crop, which aborts the call with
the ROI constructor's `cv::Exception` before the detector is
invoked. -/
theorem detectHeads_empty_vertices_proceeds
    (imdecode : List Nat → Option Image) (inf : Inference)
    (jpegData : List Nat) (thresholds : Thresholds) (img : Image)
    (hdec : imdecode jpegData = some img)
    (hw : 0 < img.cols) (hh : 0 < img.rows) :
    (detectHeads imdecode inf jpegData [] thresholds).cropRect =
      some (getTgtRect [] img.cols img.rows) ∧
    (detectHeads imdecode inf jpegData [] thresholds).outcome =
      CallOutcome.cvException ∧
    (detectHeads imdecode inf jpegData [] thresholds).detectorInputs
      = [] := by
  simp [detectHeads, hdec, cropImage_nil img hw]

/-- Witness for amended C3 at the 8×6 stub codec. -/
theorem detectHeads_empty_vertices_proceeds_witness :
    (detectHeads stubDecode stubInfNone [] [] stubThresholds).cropRect =
      some (getTgtRect [] stubImg.cols stubImg.rows) ∧
    (detectHeads stubDecode stubInfNone [] [] stubThresholds).outcome =
      CallOutcome.cvException ∧
    (detectHeads stubDecode stubInfNone [] []
      stubThresholds).detectorInputs = [] :=
  detectHeads_empty_vertices_proceeds stubDecode stubInfNone []
    stubThresholds stubImg rfl (by decide) (by decide)

/-- Counterexample to C4: with the single vertex (5,5) in a decodable
10×10 image the bounding rectangle has width 0 and height 0 and passes
the ROI range assertion, yet no EmptyRegion failure precedes the
detector: the detector is invoked, once, on the zero-area crop. -/
theorem detectHeads_zero_area_detector_called_cex :
    (getTgtRect [⟨5, 5⟩] 10 10).width = 0 ∧
    (getTgtRect [⟨5, 5⟩] 10 10).height = 0 ∧
    ((detectHeads
        (fun _ => some { cols := 10, rows := 10, pix := fun _ _ => 0 })
        stubInfNone [] [⟨5, 5⟩] stubThresholds).detectorInputs.map
      Image.cols) = [0] := by
  exact ⟨rfl, rfl, rfl⟩

/-- C4 amended: the pipeline has no EmptyRegion check: whenever
decoding succeeds and the bounding rectangle has width 0 or height 0
yet passes the crop's range assertion, the detector is still invoked —
once, on a crop of zero width or height.  (A zero-area rectangle that
fails the range assertion instead aborts the call inside the crop
itself, still without any EmptyRegion error.) -/
theorem detectHeads_zero_area_invokes_detector
    (imdecode : List Nat → Option Image) (inf : Inference)
    (jpegData : List Nat) (vertices : List OBJPos)
    (thresholds : Thresholds) (img : Image)
    (hdec : imdecode jpegData = some img)
    (hroi : roiInRange img (getTgtRect vertices img.cols img.rows))
    (hzero : (getTgtRect vertices img.cols img.rows).width = 0 ∨
      (getTgtRect vertices img.cols img.rows).height = 0) :
    (detectHeads imdecode inf jpegData vertices
      thresholds).detectorInputs.length = 1 ∧
    ∀ s ∈ (detectHeads imdecode inf jpegData vertices
      thresholds).detectorInputs, s.cols = 0 ∨ s.rows = 0 := by
  have hc : cropImage img (getTgtRect vertices img.cols img.rows) =
      some (subImage img (getTgtRect vertices img.cols img.rows)) := by
    unfold cropImage
    exact if_pos hroi
  simp only [detectHeads, hdec, hc]
  refine ⟨rfl, ?_⟩
  intro s hs
  simp only [List.mem_singleton] at hs
  subst hs
  exact hzero

/-- Witness for amended C4 at the single vertex (5,5) in the 8×6 stub
image: the crop rectangle (5,5,0,0) is zero-sized, in range, and the
detector is invoked on the zero-area crop. -/
theorem detectHeads_zero_area_invokes_detector_witness :
    (detectHeads stubDecode stubInfNone [] [⟨5, 5⟩]
      stubThresholds).detectorInputs.length = 1 ∧
    ∀ s ∈ (detectHeads stubDecode stubInfNone [] [⟨5, 5⟩]
      stubThresholds).detectorInputs, s.cols = 0 ∨ s.rows = 0 :=
  detectHeads_zero_area_invokes_detector stubDecode stubInfNone []
    [⟨5, 5⟩] stubThresholds stubImg rfl (by decide) (Or.inl rfl)

/-- Counterexample to C5: on a buffer the codec cannot decode,
`detectHeads` returns the empty vector — exactly the outcome of a
successful call whose detector reports zero detections, so the two are
not distinguishable from the function's return value. -/
theorem detectHeads_decode_failure_indistinguishable_cex :
    (detectHeads stubBadDecode stubInfNone [] [⟨0, 0⟩]
      stubThresholds).outcome =
      (detectHeads stubDecode stubInfNone [] [⟨0, 0⟩]
        stubThresholds).outcome ∧
    (detectHeads stubBadDecode stubInfNone [] [⟨0, 0⟩]
      stubThresholds).outcome = CallOutcome.ok [] := by
  exact ⟨rfl, rfl⟩

/-- C5 amended: on decode failure `detectHeads` returns the empty
vector — a value indistinguishable from a successful result with zero
detections — and no area processing happens for that request: no crop
rectangle is computed, the detector is neither configured nor
invoked. -/
theorem detectHeads_decode_failure_no_processing
    (imdecode : List Nat → Option Image) (inf : Inference)
    (jpegData : List Nat) (vertices : List OBJPos)
    (thresholds : Thresholds)
    (hdec : imdecode jpegData = none) :
    (detectHeads imdecode inf jpegData vertices thresholds).outcome =
      CallOutcome.ok [] ∧
    (detectHeads imdecode inf jpegData vertices thresholds).cropRect
      = none ∧
    (detectHeads imdecode inf jpegData vertices thresholds).detectorInputs
      = [] ∧
    (detectHeads imdecode inf jpegData vertices thresholds).infOut = inf := by
  simp [detectHeads, hdec]

/-- Witness for amended C5 at a codec that fails on every buffer. -/
theorem detectHeads_decode_failure_no_processing_witness :
    (detectHeads stubBadDecode stubInfOne [] [⟨0, 0⟩]
      stubThresholds).outcome = CallOutcome.ok [] ∧
    (detectHeads stubBadDecode stubInfOne [] [⟨0, 0⟩]
      stubThresholds).cropRect = none ∧
    (detectHeads stubBadDecode stubInfOne [] [⟨0, 0⟩]
      stubThresholds).detectorInputs = [] ∧
    (detectHeads stubBadDecode stubInfOne [] [⟨0, 0⟩]
      stubThresholds).infOut = stubInfOne :=
  detectHeads_decode_failure_no_processing stubBadDecode stubInfOne []
    [⟨0, 0⟩] stubThresholds rfl

/-- C7: extracting the sub-image does not modify the decoded image: the
image `detectHeads` holds after cropping and detection is the decoded
image, with identical pixel contents everywhere (on every successful
decode, whether or not the crop succeeds). -/
theorem detectHeads_image_unmodified (imdecode : List Nat → Option Image)
    (inf : Inference) (jpegData : List Nat) (vertices : List OBJPos)
    (thresholds : Thresholds) (img : Image)
    (hdec : imdecode jpegData = some img) :
    (detectHeads imdecode inf jpegData vertices thresholds).decodedImg
      = some img ∧
    ∀ im ∈ (detectHeads imdecode inf jpegData vertices
      thresholds).decodedImg, ∀ r c : Int, im.pix r c = img.pix r c := by
  simp only [detectHeads, hdec]
  split
  · refine ⟨rfl, ?_⟩
    intro im him r c
    simp only [Option.mem_def, Option.some.injEq] at him
    rw [← him]
  · refine ⟨rfl, ?_⟩
    intro im him r c
    simp only [Option.mem_def, Option.some.injEq] at him
    rw [← him]

/-- Witness for C7 at the stub codec and one-box stub detector. -/
theorem detectHeads_image_unmodified_witness :
    (detectHeads stubDecode stubInfOne [] [⟨1, 2⟩]
      stubThresholds).decodedImg = some stubImg ∧
    ∀ im ∈ (detectHeads stubDecode stubInfOne [] [⟨1, 2⟩]
      stubThresholds).decodedImg, ∀ r c : Int,
      im.pix r c = stubImg.pix r c :=
  detectHeads_image_unmodified stubDecode stubInfOne [] [⟨1, 2⟩]
    stubThresholds stubImg rfl

/-- C8: the `Thresholds` record passed to `detectHeads` is never
mutated by the pipeline: all three fields are unchanged after the call,
on every input (decode failure and crop failure included). -/
theorem detectHeads_thresholds_unchanged
    (imdecode : List Nat → Option Image) (inf : Inference)
    (jpegData : List Nat) (vertices : List OBJPos)
    (thresholds : Thresholds) :
    (detectHeads imdecode inf jpegData vertices
        thresholds).thresholdsOut.confidenceThreshold =
      thresholds.confidenceThreshold ∧
    (detectHeads imdecode inf jpegData vertices
        thresholds).thresholdsOut.scoreThreshold =
      thresholds.scoreThreshold ∧
    (detectHeads imdecode inf jpegData vertices
        thresholds).thresholdsOut.nmsThreshold =
      thresholds.nmsThreshold ∧
    (detectHeads imdecode inf jpegData vertices thresholds).thresholdsOut
      = thresholds := by
  simp only [detectHeads]
  split
  · exact ⟨rfl, rfl, rfl, rfl⟩
  · split
    · exact ⟨rfl, rfl, rfl, rfl⟩
    · exact ⟨rfl, rfl, rfl, rfl⟩

/-- C10: for an empty vertex sequence and a decoded image with positive
dimensions, the bounding computation returns the degenerate rectangle
(w, h, -w, -h) — strictly negative width and height — and `detectHeads`
performs no validity check of its own: it hands exactly this rectangle
to the crop, whose library-side range assertion then aborts the
call. -/
theorem detectHeads_empty_vertices_degenerate
    (imdecode : List Nat → Option Image) (inf : Inference)
    (jpegData : List Nat) (thresholds : Thresholds) (img : Image)
    (hdec : imdecode jpegData = some img)
    (hw : 0 < img.cols) (hh : 0 < img.rows) :
    getTgtRect [] img.cols img.rows =
      { x := img.cols, y := img.rows, width := -img.cols,
        height := -img.rows } ∧
    (detectHeads imdecode inf jpegData [] thresholds).cropRect =
      some (getTgtRect [] img.cols img.rows) ∧
    (∀ r ∈ (detectHeads imdecode inf jpegData [] thresholds).cropRect,
      r.width < 0 ∧ r.height < 0) ∧
    (detectHeads imdecode inf jpegData [] thresholds).outcome =
      CallOutcome.cvException := by
  refine ⟨getTgtRect_nil img.cols img.rows, ?_, ?_, ?_⟩
  · simp only [detectHeads, hdec, cropImage_nil img hw]
  · intro r hr
    simp only [detectHeads, hdec, cropImage_nil img hw,
      Option.mem_def, Option.some.injEq] at hr
    rw [← hr, getTgtRect_nil]
    constructor <;> simp <;> omega
  · simp only [detectHeads, hdec, cropImage_nil img hw]

/-- Witness for C10 at the 8×6 stub image: the crop rectangle is
(8, 6, -8, -6). -/
theorem detectHeads_empty_vertices_degenerate_witness :
    getTgtRect [] stubImg.cols stubImg.rows =
      { x := stubImg.cols, y := stubImg.rows, width := -stubImg.cols,
        height := -stubImg.rows } ∧
    (detectHeads stubDecode stubInfOne [] [] stubThresholds).cropRect =
      some (getTgtRect [] stubImg.cols stubImg.rows) ∧
    (∀ r ∈ (detectHeads stubDecode stubInfOne [] []
      stubThresholds).cropRect, r.width < 0 ∧ r.height < 0) ∧
    (detectHeads stubDecode stubInfOne [] [] stubThresholds).outcome =
      CallOutcome.cvException :=
  detectHeads_empty_vertices_degenerate stubDecode stubInfOne []
    stubThresholds stubImg rfl (by decide) (by decide)

end PersonCount
